import Mathlib

/-!
Verification of the WFS GetFeature handler of plansight-gis-server.

This file is a shallow embedding of the request handler in
src/wfs/getFeature.js (the version with srsName support): the decorator
mapFeature, the construction of the SQL parameter mapping, the two queries
(fetch and total count) run against the all_features view, and the two
serializer branches (GeoJSON and WFS/GML).  JavaScript objects are modelled
as ordered association lists with JavaScript assignment semantics (an
existing key is updated in place, a fresh key is appended), JavaScript
numbers as integers, and a thrown Error as the error branch of Except.
-/

/-- A JavaScript scalar value stored in a feature row: a string or an
integer-valued number. -/
inductive Value where
  | str (s : String)
  | int (n : Int)
deriving DecidableEq, Repr

/-- Numeric view of a value, used by the SQL comparison operators in the
bounding-box predicate. -/
def Value.asInt : Value → Option Int
  | .int n => some n
  | .str _ => none

/-- JavaScript template-literal stringification of a possibly missing object
property: a string stays itself, a number prints in decimal, and an absent
property reads as "undefined". -/
def jsStr : Option Value → String
  | some (.str s) => s
  | some (.int n) => toString n
  | none => "undefined"

/-- A JavaScript object: key/value pairs in insertion order. -/
abbrev JsObj (α : Type) := List (String × α)

/-- Property read: the value stored at the first occurrence of the key. -/
def jget {α : Type} : JsObj α → String → Option α
  | [], _ => none
  | (k0, v) :: rest, k => if k0 = k then some v else jget rest k

/-- JavaScript property assignment: an existing key keeps its position and
gets the new value, a fresh key is appended at the end. -/
def jset {α : Type} : JsObj α → String → α → JsObj α
  | [], k, v => [(k, v)]
  | (k0, v0) :: rest, k, v =>
    if k0 = k then (k0, v) :: rest else (k0, v0) :: jset rest k v

/-- Object.keys: the keys in insertion order. -/
def jkeys {α : Type} (o : JsObj α) : List String := o.map Prod.fst

/-- Rest destructuring that omits one key, as in
const \x7b $count, ...rest \x7d = queryParams. -/
def jremoveKey {α : Type} (o : JsObj α) (k : String) : JsObj α :=
  o.filter (fun kv => kv.1 != k)

/-- A loop writing one entry per listed key into an accumulator object,
skipping the keys selected by skip; the written value depends only on the
key.  This is the shape of both serializer property loops. -/
def writeAll {α : Type} (f : String → α) (skip : String → Bool) :
    List String → JsObj α → JsObj α
  | [], c => c
  | k :: ks, c =>
    if skip k then writeAll f skip ks c
    else writeAll f skip ks (jset c k (f k))

/-- Spreading a list of entries into an accumulator object, as in
\x7b viewerUrl: ..., ...feature \x7d. -/
def spreadInto : JsObj Value → List (String × Value) → JsObj Value
  | acc, [] => acc
  | acc, kv :: rest => spreadInto (jset acc kv.1 kv.2) rest

/-- The feature decorator mapFeature from src/wfs/getFeature.js: a fresh
object whose first property is the derived viewerUrl, followed by a spread
of all original fields (which therefore win on a key collision). -/
def mapFeature (serverUrl : String) (feature : JsObj Value) : JsObj Value :=
  spreadInto
    [("viewerUrl", .str (serverUrl ++ "/viewer#camera=" ++
      jsStr (jget feature "latitude") ++ "," ++
      jsStr (jget feature "longitude") ++ ",18.00z"))]
    feature

/-- The decimal digit string of a natural number, least significant digit
last; this is what both Nat.repr and the JavaScript template literal
interpolation of a nonnegative integer produce. -/
def decDigits (n : Nat) : List Char :=
  if n < 10 then [Nat.digitChar n]
  else decDigits (n / 10) ++ [Nat.digitChar (n % 10)]
termination_by n
decreasing_by exact Nat.div_lt_self (by omega) (by omega)

/-- The loop building the $param0, $param1, ... bindings for the type
names, with its running counter. -/
def addTypeParams (o : JsObj Value) (i : Nat) : List String → JsObj Value
  | [] => o
  | t :: ts => addTypeParams (jset o ("$param" ++ toString i) (.str t)) (i + 1) ts

/-- The parameter mapping built by wfsGetFeature: one $paramN slot per type
name, four $bboxN slots when a bounding box is present, and a $count slot
when a count limit is present. -/
def queryParams (typeNames : List String) (bbox : Option (Int × Int × Int × Int))
    (count : Option Nat) : JsObj Value :=
  let p1 := addTypeParams [] 0 typeNames
  let p2 :=
    match bbox with
    | none => p1
    | some (b0, b1, b2, b3) =>
      jset (jset (jset (jset p1 "$bbox0" (.int b0)) "$bbox1" (.int b1))
        "$bbox2" (.int b2)) "$bbox3" (.int b3)
  match count with
  | none => p2
  | some k => jset p2 "$count" (.int k)

/-- The WHERE clause of both queries: featureset IN the type-name slots,
conjoined with the strict bounding-box comparisons when a box is present.
A row with a missing or non-numeric coordinate fails the comparison. -/
def rowMatches (typeNames : List String) (bbox : Option (Int × Int × Int × Int))
    (row : JsObj Value) : Bool :=
  typeNames.any (fun t => jget row "featureset" == some (.str t)) &&
    match bbox with
    | none => true
    | some (b0, b1, b2, b3) =>
      match (jget row "x").bind Value.asInt, (jget row "y").bind Value.asInt with
      | some x, some y =>
        decide (b0 < x) && decide (b1 < y) && decide (x < b2) && decide (y < b3)
      | _, _ => false

/-- The fetch query: SELECT * FROM all_features with the shared WHERE
clause, and LIMIT $count when a count is present. -/
def fetchRows (table : List (JsObj Value)) (typeNames : List String)
    (bbox : Option (Int × Int × Int × Int)) (count : Option Nat) :
    List (JsObj Value) :=
  let matched := table.filter (rowMatches typeNames bbox)
  match count with
  | none => matched
  | some k => matched.take k

/-- Which of the two SQL statements a data-source call runs. -/
inductive QueryKind where
  | fetch
  | totalCount
deriving DecidableEq, Repr

/-- One call to dataSource.queryFeaturePackage: the statement run and the
parameter mapping passed with it. -/
structure QueryCall where
  kind : QueryKind
  params : JsObj Value
deriving DecidableEq, Repr

/-- Result of the query phase of wfsGetFeature: the fetched rows, the
numberMatched value, and the data-source calls that were made. -/
structure QueryPhase where
  features : List (JsObj Value)
  numberMatched : Nat
  calls : List QueryCall
deriving DecidableEq, Repr

/-- The query phase of wfsGetFeature: run the fetch query; when (and only
when) a count limit is present, drop the $count binding and run the total
count query, whose aggregate becomes numberMatched; otherwise numberMatched
is the fetched row count. -/
def queryPhase (table : List (JsObj Value)) (typeNames : List String)
    (bbox : Option (Int × Int × Int × Int)) (count : Option Nat) : QueryPhase :=
  let qp := queryParams typeNames bbox count
  let features := fetchRows table typeNames bbox count
  match count with
  | none => ⟨features, features.length, [⟨.fetch, qp⟩]⟩
  | some _ =>
    ⟨features, (table.filter (rowMatches typeNames bbox)).length,
      [⟨.fetch, qp⟩, ⟨.totalCount, jremoveKey qp "$count"⟩]⟩

/-- One GeoJSON output feature: the constant geometry type, the coordinate
pair (raw row values, possibly absent), and the properties object. -/
structure GeoFeature where
  geometryType : String
  coordinates : List (Option Value)
  properties : JsObj Value
deriving DecidableEq, Repr

/-- The properties object of the GeoJSON branch: GmlID first, then every
key of the decorated feature except geom, stringified. -/
def geoProperties (feature : JsObj Value) : JsObj Value :=
  writeAll (fun k => .str (jsStr (jget feature k))) (fun k => k == "geom")
    (jkeys feature)
    [("GmlID", .str ("Point." ++ jsStr (jget feature "id")))]

/-- One feature of the GeoJSON branch: coordinates are [x, y] unless
srsName is exactly EPSG:4326, in which case they are
[longitude, latitude]. -/
def geoFeature (srsName : Option String) (feature : JsObj Value) : GeoFeature :=
  { geometryType := "Point",
    coordinates :=
      if srsName = some "EPSG:4326" then
        [jget feature "longitude", jget feature "latitude"]
      else
        [jget feature "x", jget feature "y"],
    properties := geoProperties feature }

/-- The GeoJSON FeatureCollection envelope. -/
structure GeoJsonDoc where
  features : List GeoFeature
deriving DecidableEq, Repr

/-- A value of the GML member child object: a stringified column, or the
gml:Point element produced for the geom column. -/
inductive GmlVal where
  | text (s : String)
  | point (srsUrn : String) (srsDim : Nat) (gmlId : String) (pos : String)
deriving DecidableEq, Repr

/-- The gml:Point produced for the geom column: EPSG:3857 carries the 3857
URN and a "x y" position, EPSG:4326 carries the 4326 URN and a
"latitude longitude" position, and anything else throws
Error("unsupported SRS"). -/
def gmlGeomVal (srsName : Option String) (feature : JsObj Value) :
    Except String GmlVal :=
  if srsName = some "EPSG:3857" then
    .ok (.point "urn:ogc:def:crs:EPSG::3857" 2
      ("GmlPoint." ++ jsStr (jget feature "id"))
      (jsStr (jget feature "x") ++ " " ++ jsStr (jget feature "y")))
  else if srsName = some "EPSG:4326" then
    .ok (.point "urn:ogc:def:crs:EPSG::4326" 2
      ("GmlPoint." ++ jsStr (jget feature "id"))
      (jsStr (jget feature "latitude") ++ " " ++ jsStr (jget feature "longitude")))
  else .error "unsupported SRS"

/-- The GML property loop: for every key of the decorated feature, skip the
excluded columns, encode geom as a gml:Point (propagating the unsupported
SRS error), and stringify everything else. -/
def gmlChild (excluded : String → Bool) (srsName : Option String)
    (feature : JsObj Value) : List String → JsObj GmlVal →
    Except String (JsObj GmlVal)
  | [], c => .ok c
  | k :: ks, c =>
    if excluded k then gmlChild excluded srsName feature ks c
    else if k = "geom" then
      match gmlGeomVal srsName feature with
      | .error e => .error e
      | .ok g => gmlChild excluded srsName feature ks (jset c k g)
    else
      gmlChild excluded srsName feature ks
        (jset c k (.text (jsStr (jget feature k))))

/-- One wfs:member of the GML branch: a child element whose tag is the
featureset value of the row, carrying the gml:id attribute and the looped
properties. -/
structure GmlMember where
  tag : String
  child : JsObj GmlVal
deriving DecidableEq, Repr

/-- Building one wfs:member: the child element named after the featureset
value starts with its gml:id attribute Point.<id>, then the property loop
runs over the feature keys. -/
def gmlMember (excluded : String → Bool) (srsName : Option String)
    (feature : JsObj Value) : Except String GmlMember :=
  match gmlChild excluded srsName feature (jkeys feature)
      [("@gml:id", .text ("Point." ++ jsStr (jget feature "id")))] with
  | .error e => .error e
  | .ok child => .ok ⟨jsStr (jget feature "featureset"), child⟩

/-- Building every wfs:member in order; the first thrown error aborts the
whole document. -/
def mapMembers (excluded : String → Bool) (srsName : Option String) :
    List (JsObj Value) → Except String (List GmlMember)
  | [] => .ok []
  | f :: fs =>
    match gmlMember excluded srsName f with
    | .error e => .error e
    | .ok m =>
      match mapMembers excluded srsName fs with
      | .error e => .error e
      | .ok ms => .ok (m :: ms)

/-- The wfs:FeatureCollection document of the GML branch. -/
structure GmlDoc where
  xmlnsWfs : String
  xmlnsGml : String
  xmlnsXsi : String
  numberReturned : Nat
  numberMatched : Nat
  members : List GmlMember
deriving DecidableEq, Repr

/-- The body of the HTTP response: a GeoJSON document or a GML document. -/
inductive ResponseBody where
  | json (doc : GeoJsonDoc)
  | xml (doc : GmlDoc)
deriving DecidableEq, Repr

/-- The response written by the handler. -/
structure HttpResponse where
  status : Nat
  contentType : String
  body : ResponseBody
deriving DecidableEq, Repr

/-- The validated request produced by the parameter resolver. -/
structure WfsRequest where
  typeNames : List String
  bbox : Option (Int × Int × Int × Int)
  count : Option Nat
  outputFormat : String
  srsName : Option String
deriving DecidableEq, Repr

/-- The wfsGetFeature handler after parameter resolution: the query phase,
the decoration of every fetched row, and one of the two serializer
branches.  The returned pair carries the data-source calls that were made
and either the response or the thrown error; an error means nothing was
written to the client. -/
def wfsGetFeature (table : List (JsObj Value)) (excluded : String → Bool)
    (serverUrl : String) (req : WfsRequest) :
    List QueryCall × Except String HttpResponse :=
  let qp := queryPhase table req.typeNames req.bbox req.count
  let features := qp.features.map (mapFeature serverUrl)
  if req.outputFormat = "GEOJSON" then
    (qp.calls, .ok
      { status := 200, contentType := "application/json",
        body := .json { features := features.map (geoFeature req.srsName) } })
  else
    (qp.calls,
      match mapMembers excluded req.srsName features with
      | .error e => .error e
      | .ok members => .ok
        { status := 200, contentType := "text/xml",
          body := .xml
            { xmlnsWfs := "http://www.opengis.net/wfs/2.0",
              xmlnsGml := "http://www.opengis.net/gml/3.2",
              xmlnsXsi := "http://www.w3.org/2001/XMLSchema-instance",
              numberReturned := features.length,
              numberMatched := qp.numberMatched,
              members := members } })

/-- Modelled from the spec: the parameter resolver (parseWfsParams, whose
source is not among the files here) yields an optional srsName that
"defaults to EPSG:3857 semantics when absent"; this resolves a raw optional
value to the effective CRS name seen by the handler. -/
def resolveSrsName (raw : Option String) : String := raw.getD "EPSG:3857"

/-- Modelled from the spec: EXCLUDED_WFS_COLUMNS (src/wfs/excluded.js,
whose source is not among the files here) is the external configuration of
reserved column names; the handler notes that the id and featureset
identity columns are the reserved ones. -/
def EXCLUDED_WFS_COLUMNS : String → Bool :=
  fun k => k == "id" || k == "featureset"

/-- A sample feature row used to instantiate the theorems. -/
def sampleRow1 : JsObj Value :=
  [("id", .str "1"), ("featureset", .str "parks"), ("x", .int 3), ("y", .int 4),
   ("latitude", .int 10), ("longitude", .int 20), ("geom", .str "blob")]

/-- A second sample feature row. -/
def sampleRow2 : JsObj Value :=
  [("id", .str "2"), ("featureset", .str "parks"), ("x", .int 5), ("y", .int 6),
   ("latitude", .int 11), ("longitude", .int 21), ("geom", .str "blob")]

/-- A sample table holding the two sample rows. -/
def sampleTable : List (JsObj Value) := [sampleRow1, sampleRow2]

/-- A row carrying a column literally named GmlID, which collides with the
reserved GeoJSON identity property. -/
def gmlidRow : JsObj Value := [("id", .str "7"), ("GmlID", .str "boom")]

/-- An attribute key in the xmlbuilder2 object convention: a key whose first
character is the at sign, such as the @gml:id attribute. -/
def isAttrKey (k : String) : Bool :=
  match k.data with
  | [] => false
  | c :: _ => c == '@'


theorem mem_jkeys_cons {α : Type} (kv : String × α) (rest : JsObj α) (k : String) :
    k ∈ jkeys (kv :: rest) ↔ k = kv.1 ∨ k ∈ jkeys rest := by
  simp [jkeys, eq_comm]

theorem jget_jset {α : Type} (o : JsObj α) (k k2 : String) (v : α) :
    jget (jset o k v) k2 = if k = k2 then some v else jget o k2 := by
  induction o with
  | nil => simp [jset, jget]
  | cons kv rest ih =>
    obtain ⟨k0, v0⟩ := kv
    by_cases h0 : k0 = k
    · subst h0
      by_cases h2 : k0 = k2 <;> simp [jset, jget, h2]
    · by_cases h2 : k0 = k2
      · subst h2
        have hne : ¬ k = k0 := fun h => h0 h.symm
        simp [jset, jget, h0, hne]
      · simp [jset, jget, h0, h2, ih]

theorem jget_eq_none_iff {α : Type} (o : JsObj α) (k : String) :
    jget o k = none ↔ k ∉ jkeys o := by
  induction o with
  | nil => simp [jget, jkeys]
  | cons kv rest ih =>
    obtain ⟨k0, v0⟩ := kv
    rw [show jget ((k0, v0) :: rest) k = if k0 = k then some v0 else jget rest k from rfl]
    rw [mem_jkeys_cons]
    by_cases h0 : k0 = k
    · simp [h0]
    · have hne : ¬ k = k0 := fun hh => h0 hh.symm
      simp [h0, ih, hne]

theorem mem_jkeys_jset {α : Type} (o : JsObj α) (k : String) (v : α) (k2 : String) :
    k2 ∈ jkeys (jset o k v) ↔ k2 ∈ jkeys o ∨ k2 = k := by
  induction o with
  | nil => simp [jset, jkeys, eq_comm]
  | cons kv rest ih =>
    obtain ⟨k0, v0⟩ := kv
    by_cases h0 : k0 = k
    · subst h0
      rw [show jset ((k0, v0) :: rest) k0 v = (k0, v) :: rest from by simp [jset]]
      rw [mem_jkeys_cons, mem_jkeys_cons]
      tauto
    · rw [show jset ((k0, v0) :: rest) k v = (k0, v0) :: jset rest k v from by
        simp [jset, h0]]
      rw [mem_jkeys_cons, mem_jkeys_cons, ih]
      tauto

theorem jkeys_jset_not_mem {α : Type} (o : JsObj α) (k : String) (v : α)
    (h : k ∉ jkeys o) : jkeys (jset o k v) = jkeys o ++ [k] := by
  induction o with
  | nil => simp [jset, jkeys]
  | cons kv rest ih =>
    obtain ⟨k0, v0⟩ := kv
    rw [mem_jkeys_cons] at h
    push_neg at h
    have h0 : ¬ k0 = k := fun hh => h.1 hh.symm
    rw [show jset ((k0, v0) :: rest) k v = (k0, v0) :: jset rest k v from by
      simp [jset, h0]]
    rw [show jkeys ((k0, v0) :: jset rest k v) = k0 :: jkeys (jset rest k v) from rfl]
    rw [ih h.2]
    rfl

theorem jkeys_jset_mem {α : Type} (o : JsObj α) (k : String) (v : α)
    (h : k ∈ jkeys o) : jkeys (jset o k v) = jkeys o := by
  induction o with
  | nil => simp [jkeys] at h
  | cons kv rest ih =>
    obtain ⟨k0, v0⟩ := kv
    by_cases h0 : k0 = k
    · subst h0
      rw [show jset ((k0, v0) :: rest) k0 v = (k0, v) :: rest from by simp [jset]]
      rfl
    · rw [mem_jkeys_cons] at h
      rcases h with h | h
      · exact absurd h.symm h0
      · rw [show jset ((k0, v0) :: rest) k v = (k0, v0) :: jset rest k v from by
          simp [jset, h0]]
        rw [show jkeys ((k0, v0) :: jset rest k v) = k0 :: jkeys (jset rest k v) from rfl]
        rw [ih h]
        rfl

theorem jkeys_jset_nodup {α : Type} (o : JsObj α) (k : String) (v : α)
    (h : (jkeys o).Nodup) : (jkeys (jset o k v)).Nodup := by
  by_cases hm : k ∈ jkeys o
  · rw [jkeys_jset_mem o k v hm]; exact h
  · rw [jkeys_jset_not_mem o k v hm]
    simp [List.nodup_append, h, hm]

theorem jget_writeAll {α : Type} (f : String → α) (skip : String → Bool)
    (ks : List String) (init : JsObj α) (k : String) :
    jget (writeAll f skip ks init) k =
      if k ∈ ks ∧ skip k = false then some (f k) else jget init k := by
  induction ks generalizing init with
  | nil => simp [writeAll]
  | cons k0 ks ih =>
    rw [writeAll]
    by_cases hs : skip k0
    · rw [if_pos hs, ih]
      by_cases hk : k = k0
      · subst hk
        simp [hs]
      · simp [hk]
    · rw [if_neg hs, ih, jget_jset]
      by_cases hk : k = k0
      · subst hk
        simp [Bool.not_eq_true] at hs
        simp [hs]
      · have hk0 : ¬ k0 = k := fun hh => hk hh.symm
        simp [hk, hk0]

theorem mem_jkeys_writeAll {α : Type} (f : String → α) (skip : String → Bool)
    (ks : List String) (init : JsObj α) (k : String) :
    k ∈ jkeys (writeAll f skip ks init) ↔
      k ∈ jkeys init ∨ (k ∈ ks ∧ skip k = false) := by
  induction ks generalizing init with
  | nil => simp [writeAll]
  | cons k0 ks ih =>
    rw [writeAll]
    by_cases hs : skip k0
    · rw [if_pos hs, ih]
      by_cases hk : k = k0
      · subst hk
        simp [hs]
      · simp [hk]
    · rw [if_neg hs, ih, mem_jkeys_jset]
      by_cases hk : k = k0
      · subst hk
        simp [Bool.not_eq_true] at hs
        simp [hs]
      · simp [hk]

theorem jkeys_writeAll_nodup {α : Type} (f : String → α) (skip : String → Bool)
    (ks : List String) (init : JsObj α) (h : (jkeys init).Nodup) :
    (jkeys (writeAll f skip ks init)).Nodup := by
  induction ks generalizing init with
  | nil => exact h
  | cons k0 ks ih =>
    rw [writeAll]
    by_cases hs : skip k0
    · rw [if_pos hs]; exact ih init h
    · rw [if_neg hs]
      exact ih _ (jkeys_jset_nodup init k0 (f k0) h)

theorem jget_spreadInto_not_mem (l : List (String × Value)) (init : JsObj Value)
    (k : String) (h : k ∉ jkeys l) :
    jget (spreadInto init l) k = jget init k := by
  induction l generalizing init with
  | nil => simp [spreadInto]
  | cons kv rest ih =>
    rw [mem_jkeys_cons] at h
    push_neg at h
    rw [spreadInto, ih _ h.2, jget_jset]
    have : ¬ kv.1 = k := fun hh => h.1 hh.symm
    simp [this]

theorem jget_spreadInto_mem (l : List (String × Value)) (init : JsObj Value)
    (k : String) (hnd : (jkeys l).Nodup) (h : k ∈ jkeys l) :
    jget (spreadInto init l) k = jget l k := by
  induction l generalizing init with
  | nil => simp [jkeys] at h
  | cons kv rest ih =>
    obtain ⟨k0, v0⟩ := kv
    rw [show jkeys ((k0, v0) :: rest) = k0 :: jkeys rest from rfl] at hnd
    rw [List.nodup_cons] at hnd
    rw [mem_jkeys_cons] at h
    rw [spreadInto]
    by_cases hk : k = k0
    · subst hk
      rw [jget_spreadInto_not_mem _ _ _ hnd.1, jget_jset]
      simp [jget]
    · rcases h with h | h
      · exact absurd h hk
      · rw [ih _ hnd.2 h]
        have : ¬ k0 = k := fun hh => hk hh.symm
        simp [jget, this]

theorem mem_jkeys_spreadInto (l : List (String × Value)) (init : JsObj Value)
    (k : String) :
    k ∈ jkeys (spreadInto init l) ↔ k ∈ jkeys init ∨ k ∈ jkeys l := by
  induction l generalizing init with
  | nil => simp [spreadInto, jkeys]
  | cons kv rest ih =>
    rw [spreadInto, ih, mem_jkeys_jset, mem_jkeys_cons]
    tauto

theorem jkeys_spreadInto (l : List (String × Value)) (init : JsObj Value)
    (hnd : (jkeys l).Nodup) (hd : ∀ k ∈ jkeys l, k ∉ jkeys init) :
    jkeys (spreadInto init l) = jkeys init ++ jkeys l := by
  induction l generalizing init with
  | nil => simp [spreadInto, jkeys]
  | cons kv rest ih =>
    obtain ⟨k0, v0⟩ := kv
    rw [show jkeys ((k0, v0) :: rest) = k0 :: jkeys rest from rfl] at hnd hd ⊢
    rw [List.nodup_cons] at hnd
    rw [spreadInto]
    have hk0 : k0 ∉ jkeys init := hd k0 (by simp)
    rw [ih _ hnd.2 ?side]
    case side =>
      intro k hk
      rw [jkeys_jset_not_mem init k0 v0 hk0]
      simp only [List.mem_append, List.mem_singleton]
      rintro (hin | rfl)
      · exact hd k (by simp [hk]) hin
      · exact hnd.1 hk
    rw [jkeys_jset_not_mem init k0 v0 hk0]
    simp

theorem jget_mapFeature (serverUrl : String) (row : JsObj Value)
    (hnd : (jkeys row).Nodup) (k : String) (hk : k ≠ "viewerUrl") :
    jget (mapFeature serverUrl row) k = jget row k := by
  by_cases hm : k ∈ jkeys row
  · rw [mapFeature, jget_spreadInto_mem _ _ _ hnd hm]
  · rw [mapFeature, jget_spreadInto_not_mem _ _ _ hm]
    rw [(jget_eq_none_iff row k).2 hm]
    have hne : ¬ "viewerUrl" = k := fun hh => hk hh.symm
    simp [jget, hne]

theorem jget_mapFeature_viewerUrl (serverUrl : String) (row : JsObj Value)
    (h : "viewerUrl" ∉ jkeys row) :
    jget (mapFeature serverUrl row) "viewerUrl" =
      some (.str (serverUrl ++ "/viewer#camera=" ++
        jsStr (jget row "latitude") ++ "," ++
        jsStr (jget row "longitude") ++ ",18.00z")) := by
  rw [mapFeature, jget_spreadInto_not_mem _ _ _ h]
  simp [jget]

theorem jkeys_mapFeature (serverUrl : String) (row : JsObj Value)
    (hnd : (jkeys row).Nodup) (h : "viewerUrl" ∉ jkeys row) :
    jkeys (mapFeature serverUrl row) = "viewerUrl" :: jkeys row := by
  rw [mapFeature, jkeys_spreadInto _ _ hnd ?disj]
  case disj =>
    intro k hk
    simp only [jkeys, List.map_cons, List.map_nil, List.mem_singleton]
    rintro rfl
    exact h hk
  rfl

theorem mem_jkeys_mapFeature (serverUrl : String) (row : JsObj Value) (k : String) :
    k ∈ jkeys (mapFeature serverUrl row) ↔ k = "viewerUrl" ∨ k ∈ jkeys row := by
  rw [mapFeature, mem_jkeys_spreadInto]
  simp [jkeys]

theorem jkeys_spreadInto_nodup (l : List (String × Value)) (init : JsObj Value)
    (h1 : (jkeys init).Nodup) (h2 : (jkeys l).Nodup) :
    (jkeys (spreadInto init l)).Nodup := by
  induction l generalizing init with
  | nil => exact h1
  | cons kv rest ih =>
    rw [show jkeys (kv :: rest) = kv.1 :: jkeys rest from rfl] at h2
    rw [List.nodup_cons] at h2
    rw [spreadInto]
    exact ih _ (jkeys_jset_nodup init kv.1 kv.2 h1) h2.2

theorem jkeys_mapFeature_nodup (serverUrl : String) (row : JsObj Value)
    (hnd : (jkeys row).Nodup) : (jkeys (mapFeature serverUrl row)).Nodup := by
  rw [mapFeature]
  exact jkeys_spreadInto_nodup _ _ (by simp [jkeys]) hnd

theorem decDigits_lt (n : Nat) (h : n < 10) : decDigits n = [Nat.digitChar n] := by
  rw [decDigits, if_pos h]

theorem decDigits_ge (n : Nat) (h : ¬ n < 10) :
    decDigits n = decDigits (n / 10) ++ [Nat.digitChar (n % 10)] := by
  rw [decDigits, if_neg h]

theorem decDigits_ne_nil (n : Nat) : decDigits n ≠ [] := by
  by_cases h : n < 10
  · rw [decDigits_lt n h]; simp
  · rw [decDigits_ge n h]; simp

theorem toDigitsCore_eq_decDigits :
    ∀ (f n : Nat) (l : List Char), n < f →
      Nat.toDigitsCore 10 f n l = decDigits n ++ l := by
  intro f
  induction f with
  | zero => intro n l h; omega
  | succ f ih =>
    intro n l h
    rw [show Nat.toDigitsCore 10 (f + 1) n l =
      if n / 10 = 0 then Nat.digitChar (n % 10) :: l
      else Nat.toDigitsCore 10 f (n / 10) (Nat.digitChar (n % 10) :: l) from rfl]
    by_cases h0 : n / 10 = 0
    · rw [if_pos h0]
      have hlt : n < 10 := by omega
      rw [decDigits_lt n hlt, Nat.mod_eq_of_lt hlt]
      rfl
    · rw [if_neg h0]
      have hdiv : n / 10 < n := Nat.div_lt_self (by omega) (by omega)
      rw [ih (n / 10) _ (by omega)]
      have hge : ¬ n < 10 := by omega
      rw [decDigits_ge n hge]
      simp

theorem toString_nat_data (n : Nat) : (toString n).data = decDigits n := by
  have h : toString n = (Nat.toDigitsCore 10 (n + 1) n []).asString := rfl
  rw [h, toDigitsCore_eq_decDigits (n + 1) n [] (by omega), List.append_nil]
  rfl

theorem digitChar_injOn :
    ∀ a : Nat, a < 10 → ∀ b : Nat, b < 10 → Nat.digitChar a = Nat.digitChar b → a = b := by
  decide

theorem decDigits_inj : ∀ m n : Nat, decDigits m = decDigits n → m = n := by
  intro m
  induction m using Nat.strong_induction_on with
  | _ m ih =>
    intro n h
    by_cases hm : m < 10 <;> by_cases hn : n < 10
    · rw [decDigits_lt m hm, decDigits_lt n hn] at h
      exact digitChar_injOn m hm n hn (List.singleton_injective h)
    · rw [decDigits_lt m hm, decDigits_ge n hn] at h
      have hlen := congrArg List.length h
      rw [List.length_append] at hlen
      have hpos : 0 < (decDigits (n / 10)).length :=
        List.length_pos.2 (decDigits_ne_nil (n / 10))
      simp only [List.length_singleton] at hlen
      omega
    · rw [decDigits_ge m hm, decDigits_lt n hn] at h
      have hlen := congrArg List.length h
      rw [List.length_append] at hlen
      have hpos : 0 < (decDigits (m / 10)).length :=
        List.length_pos.2 (decDigits_ne_nil (m / 10))
      simp only [List.length_singleton] at hlen
      omega
    · rw [decDigits_ge m hm, decDigits_ge n hn] at h
      have h2 := congrArg List.reverse h
      simp only [List.reverse_append, List.reverse_singleton, List.singleton_append,
        List.cons.injEq, List.reverse_inj] at h2
      have hmod : m % 10 = n % 10 :=
        digitChar_injOn (m % 10) (Nat.mod_lt m (by omega)) (n % 10)
          (Nat.mod_lt n (by omega)) h2.1
      have hdivlt : m / 10 < m := Nat.div_lt_self (by omega) (by omega)
      have hdiv : m / 10 = n / 10 := ih (m / 10) hdivlt (n / 10) h2.2
      omega

theorem toString_nat_inj (m n : Nat) (h : toString m = toString n) : m = n := by
  have h2 := congrArg String.data h
  rw [toString_nat_data, toString_nat_data] at h2
  exact decDigits_inj m n h2

theorem paramKey_inj (i j : Nat)
    (h : "$param" ++ toString i = "$param" ++ toString j) : i = j := by
  have h2 := congrArg String.data h
  rw [String.data_append, String.data_append] at h2
  have h3 : (toString i).data = (toString j).data := by
    exact List.append_cancel_left h2
  apply toString_nat_inj
  cases hi : toString i with
  | mk di =>
    cases hj : toString j with
    | mk dj =>
      rw [hi, hj] at h3
      have h4 : di = dj := by simpa using h3
      rw [h4]

theorem paramKey_ne_special (x : String) :
    "$param" ++ x ≠ "$bbox0" ∧ "$param" ++ x ≠ "$bbox1" ∧ "$param" ++ x ≠ "$bbox2" ∧
      "$param" ++ x ≠ "$bbox3" ∧ "$param" ++ x ≠ "$count" := by
  refine ⟨?_, ?_, ?_, ?_, ?_⟩ <;>
    (intro h; have h2 := congrArg String.data h; simp [String.data_append] at h2)

theorem jget_addTypeParams_other :
    ∀ (ts : List String) (i : Nat) (o : JsObj Value) (k : String),
      (∀ j, j < ts.length → k ≠ "$param" ++ toString (i + j)) →
      jget (addTypeParams o i ts) k = jget o k := by
  intro ts
  induction ts with
  | nil => intro i o k _; rfl
  | cons t ts ih =>
    intro i o k h
    rw [addTypeParams]
    rw [ih (i + 1) _ k ?h2]
    case h2 =>
      intro j hj
      have harith : i + 1 + j = i + (j + 1) := by omega
      rw [harith]
      exact h (j + 1) (by simp only [List.length_cons]; omega)
    rw [jget_jset]
    have h0 := h 0 (by simp)
    have hne : ¬ ("$param" ++ toString i = k) := by
      intro hh
      exact h0 (by rw [← hh, Nat.add_zero])
    simp [hne]

theorem jget_addTypeParams :
    ∀ (ts : List String) (i : Nat) (o : JsObj Value) (j : Nat) (h : j < ts.length),
      jget (addTypeParams o i ts) ("$param" ++ toString (i + j)) =
        some (.str (ts.get ⟨j, h⟩)) := by
  intro ts
  induction ts with
  | nil => intro i o j h; simp at h
  | cons t ts ih =>
    intro i o j h
    rw [addTypeParams]
    cases j with
    | zero =>
      rw [jget_addTypeParams_other ts (i + 1) _ _ ?fresh]
      case fresh =>
        intro j2 hj2 heq
        have := paramKey_inj _ _ heq
        omega
      rw [jget_jset]
      have heq : "$param" ++ toString i = "$param" ++ toString (i + 0) := by
        rw [Nat.add_zero]
      simp [← heq, List.get]
    | succ j2 =>
      have hlt : j2 < ts.length := by
        simp only [List.length_cons] at h
        omega
      have harith : i + (j2 + 1) = (i + 1) + j2 := by omega
      rw [harith, ih (i + 1) _ j2 hlt]
      rfl

theorem jkeys_addTypeParams_nodup :
    ∀ (ts : List String) (i : Nat) (o : JsObj Value),
      (jkeys o).Nodup →
      (∀ j, j < ts.length → ("$param" ++ toString (i + j)) ∉ jkeys o) →
      (jkeys (addTypeParams o i ts)).Nodup := by
  intro ts
  induction ts with
  | nil => intro i o h _; exact h
  | cons t ts ih =>
    intro i o h hf
    rw [addTypeParams]
    apply ih (i + 1) _ (jkeys_jset_nodup o _ _ h)
    intro j hj hmem
    rw [mem_jkeys_jset] at hmem
    rcases hmem with hmem | hmem
    · have harith : i + 1 + j = i + (j + 1) := by omega
      rw [harith] at hmem
      exact hf (j + 1) (by simp only [List.length_cons]; omega) hmem
    · have := paramKey_inj _ _ hmem
      omega

theorem jget_queryParams_param (tns : List String) (bbox : Option (Int × Int × Int × Int))
    (count : Option Nat) (i : Nat) (h : i < tns.length) :
    jget (queryParams tns bbox count) ("$param" ++ toString i) =
      some (.str (tns.get ⟨i, h⟩)) := by
  obtain ⟨hb0, hb1, hb2, hb3, hc⟩ := paramKey_ne_special (toString i)
  have hget : jget (addTypeParams [] 0 tns) ("$param" ++ toString i) =
      some (.str (tns.get ⟨i, h⟩)) := by
    rw [show ("$param" ++ toString i) = ("$param" ++ toString (0 + i)) from by
      rw [Nat.zero_add]]
    exact jget_addTypeParams tns 0 [] i h
  have hcne : ¬ ("$count" = "$param" ++ toString i) := fun hh => hc hh.symm
  have hb0ne : ¬ ("$bbox0" = "$param" ++ toString i) := fun hh => hb0 hh.symm
  have hb1ne : ¬ ("$bbox1" = "$param" ++ toString i) := fun hh => hb1 hh.symm
  have hb2ne : ¬ ("$bbox2" = "$param" ++ toString i) := fun hh => hb2 hh.symm
  have hb3ne : ¬ ("$bbox3" = "$param" ++ toString i) := fun hh => hb3 hh.symm
  cases count with
  | none =>
    cases bbox with
    | none => simpa [queryParams] using hget
    | some b =>
      obtain ⟨b0, b1, b2, b3⟩ := b
      simp only [queryParams]
      rw [jget_jset, if_neg hb3ne, jget_jset, if_neg hb2ne, jget_jset, if_neg hb1ne,
        jget_jset, if_neg hb0ne]
      exact hget
  | some k =>
    cases bbox with
    | none =>
      simp only [queryParams]
      rw [jget_jset, if_neg hcne]
      exact hget
    | some b =>
      obtain ⟨b0, b1, b2, b3⟩ := b
      simp only [queryParams]
      rw [jget_jset, if_neg hcne, jget_jset, if_neg hb3ne, jget_jset, if_neg hb2ne,
        jget_jset, if_neg hb1ne, jget_jset, if_neg hb0ne]
      exact hget

theorem jget_queryParams_bbox (tns : List String) (b0 b1 b2 b3 : Int)
    (count : Option Nat) :
    jget (queryParams tns (some (b0, b1, b2, b3)) count) "$bbox0" = some (.int b0) ∧
    jget (queryParams tns (some (b0, b1, b2, b3)) count) "$bbox1" = some (.int b1) ∧
    jget (queryParams tns (some (b0, b1, b2, b3)) count) "$bbox2" = some (.int b2) ∧
    jget (queryParams tns (some (b0, b1, b2, b3)) count) "$bbox3" = some (.int b3) := by
  cases count with
  | none =>
    refine ⟨?_, ?_, ?_, ?_⟩ <;>
      (simp only [queryParams]
       rw [jget_jset, jget_jset, jget_jset, jget_jset]
       simp)
  | some k =>
    refine ⟨?_, ?_, ?_, ?_⟩ <;>
      (simp only [queryParams]
       rw [jget_jset, jget_jset, jget_jset, jget_jset, jget_jset]
       simp)

theorem jget_queryParams_count (tns : List String) (bbox : Option (Int × Int × Int × Int))
    (k : Nat) : jget (queryParams tns bbox (some k)) "$count" = some (.int k) := by
  cases bbox with
  | none =>
    simp only [queryParams]
    rw [jget_jset]
    simp
  | some b =>
    obtain ⟨b0, b1, b2, b3⟩ := b
    simp only [queryParams]
    rw [jget_jset]
    simp

theorem jkeys_queryParams_nodup (tns : List String) (bbox : Option (Int × Int × Int × Int))
    (count : Option Nat) : (jkeys (queryParams tns bbox count)).Nodup := by
  have h1 : (jkeys (addTypeParams [] 0 tns)).Nodup :=
    jkeys_addTypeParams_nodup tns 0 [] (by simp [jkeys]) (by intro j _; simp [jkeys])
  cases count with
  | none =>
    cases bbox with
    | none => simpa [queryParams] using h1
    | some b =>
      obtain ⟨b0, b1, b2, b3⟩ := b
      simp only [queryParams]
      exact jkeys_jset_nodup _ _ _ (jkeys_jset_nodup _ _ _
        (jkeys_jset_nodup _ _ _ (jkeys_jset_nodup _ _ _ h1)))
  | some k =>
    cases bbox with
    | none =>
      simp only [queryParams]
      exact jkeys_jset_nodup _ _ _ h1
    | some b =>
      obtain ⟨b0, b1, b2, b3⟩ := b
      simp only [queryParams]
      exact jkeys_jset_nodup _ _ _ (jkeys_jset_nodup _ _ _ (jkeys_jset_nodup _ _ _
        (jkeys_jset_nodup _ _ _ (jkeys_jset_nodup _ _ _ h1))))

theorem jremoveKey_ne {α : Type} (o : JsObj α) (k : String) :
    ∀ kv ∈ jremoveKey o k, kv.1 ≠ k := by
  intro kv h
  rw [jremoveKey, List.mem_filter] at h
  simpa using h.2

theorem gmlGeomVal_error_val (srsName : Option String) (feature : JsObj Value)
    (e : String) (h : gmlGeomVal srsName feature = .error e) : e = "unsupported SRS" := by
  rw [gmlGeomVal] at h
  by_cases h1 : srsName = some "EPSG:3857"
  · rw [if_pos h1] at h; exact absurd h (by simp)
  · rw [if_neg h1] at h
    by_cases h2 : srsName = some "EPSG:4326"
    · rw [if_pos h2] at h; exact absurd h (by simp)
    · rw [if_neg h2] at h
      simpa using h.symm

theorem gmlGeomVal_bad (srsName : Option String) (feature : JsObj Value)
    (h1 : srsName ≠ some "EPSG:3857") (h2 : srsName ≠ some "EPSG:4326") :
    gmlGeomVal srsName feature = .error "unsupported SRS" := by
  rw [gmlGeomVal, if_neg h1, if_neg h2]

theorem gmlChild_ok_char (excluded : String → Bool) (srsName : Option String)
    (feature : JsObj Value) (g : GmlVal)
    (hok : gmlGeomVal srsName feature = .ok g) :
    ∀ (ks : List String) (init : JsObj GmlVal),
      gmlChild excluded srsName feature ks init =
        .ok (writeAll
          (fun k => if k = "geom" then g else .text (jsStr (jget feature k)))
          excluded ks init) := by
  intro ks
  induction ks with
  | nil => intro init; rfl
  | cons k0 ks ih =>
    intro init
    rw [gmlChild, writeAll]
    by_cases he : excluded k0
    · rw [if_pos he, if_pos he]
      exact ih init
    · rw [if_neg he, if_neg he]
      by_cases hg : k0 = "geom"
      · rw [if_pos hg, if_pos hg, hok]
        exact ih _
      · rw [if_neg hg, if_neg hg]
        exact ih _

theorem gmlChild_error (excluded : String → Bool) (srsName : Option String)
    (feature : JsObj Value) (e : String)
    (herr : gmlGeomVal srsName feature = .error e) :
    ∀ (ks : List String) (init : JsObj GmlVal),
      "geom" ∈ ks → excluded "geom" = false →
      gmlChild excluded srsName feature ks init = .error e := by
  intro ks
  induction ks with
  | nil => intro init h _; simp at h
  | cons k0 ks ih =>
    intro init hmem hexc
    rw [gmlChild]
    by_cases he : excluded k0
    · rw [if_pos he]
      rcases List.mem_cons.1 hmem with hcase | hcase
      · rw [← hcase] at he
        rw [hexc] at he
        exact absurd he (by simp)
      · exact ih init hcase hexc
    · rw [if_neg he]
      by_cases hg : k0 = "geom"
      · rw [if_pos hg, herr]
      · rw [if_neg hg]
        rcases List.mem_cons.1 hmem with hcase | hcase
        · exact absurd hcase.symm hg
        · exact ih _ hcase hexc

theorem gmlChild_ok_no_geom (excluded : String → Bool) (srsName : Option String)
    (feature : JsObj Value) :
    ∀ (ks : List String) (init : JsObj GmlVal),
      (∀ k ∈ ks, excluded k = true ∨ k ≠ "geom") →
      ∃ c, gmlChild excluded srsName feature ks init = .ok c := by
  intro ks
  induction ks with
  | nil => intro init _; exact ⟨init, rfl⟩
  | cons k0 ks ih =>
    intro init h
    rw [gmlChild]
    by_cases he : excluded k0
    · rw [if_pos he]
      exact ih init (fun k hk => h k (List.mem_cons_of_mem _ hk))
    · rw [if_neg he]
      have hg : ¬ k0 = "geom" := by
        rcases h k0 (List.mem_cons_self _ _) with hc | hc
        · rw [hc] at he; exact absurd rfl he
        · exact hc
      rw [if_neg hg]
      exact ih _ (fun k hk => h k (List.mem_cons_of_mem _ hk))

theorem gmlChild_ok_jget_not_mem (excluded : String → Bool) (srsName : Option String)
    (feature : JsObj Value) :
    ∀ (ks : List String) (init : JsObj GmlVal) (c : JsObj GmlVal),
      gmlChild excluded srsName feature ks init = .ok c →
      ∀ k, k ∉ ks → jget c k = jget init k := by
  intro ks
  induction ks with
  | nil =>
    intro init c h k _
    rw [show gmlChild excluded srsName feature [] init = .ok init from rfl] at h
    cases h
    rfl
  | cons k0 ks ih =>
    intro init c h k hk
    have hk0 : k ≠ k0 := fun hh => hk (hh ▸ List.mem_cons_self _ _)
    have hks : k ∉ ks := fun hh => hk (List.mem_cons_of_mem _ hh)
    rw [gmlChild] at h
    by_cases he : excluded k0
    · rw [if_pos he] at h
      exact ih init c h k hks
    · rw [if_neg he] at h
      by_cases hg : k0 = "geom"
      · rw [if_pos hg] at h
        cases hgeom : gmlGeomVal srsName feature with
        | error e => rw [hgeom] at h; exact absurd h (by simp)
        | ok g =>
          rw [hgeom] at h
          have h2 : gmlChild excluded srsName feature ks (jset init k0 g) = .ok c := h
          have hne : ¬ k0 = k := fun hh => hk0 hh.symm
          rw [ih _ c h2 k hks, jget_jset, if_neg hne]
      · rw [if_neg hg] at h
        have hne : ¬ k0 = k := fun hh => hk0 hh.symm
        rw [ih _ c h k hks, jget_jset, if_neg hne]

theorem gmlChild_ok_mem_jkeys (excluded : String → Bool) (srsName : Option String)
    (feature : JsObj Value) :
    ∀ (ks : List String) (init : JsObj GmlVal) (c : JsObj GmlVal),
      gmlChild excluded srsName feature ks init = .ok c →
      ∀ k ∈ jkeys c, k ∈ jkeys init ∨ (k ∈ ks ∧ excluded k = false) := by
  intro ks
  induction ks with
  | nil =>
    intro init c h k hk
    rw [show gmlChild excluded srsName feature [] init = .ok init from rfl] at h
    cases h
    exact Or.inl hk
  | cons k0 ks ih =>
    intro init c h k hk
    rw [gmlChild] at h
    by_cases he : excluded k0
    · rw [if_pos he] at h
      rcases ih init c h k hk with hc | hc
      · exact Or.inl hc
      · exact Or.inr ⟨List.mem_cons_of_mem _ hc.1, hc.2⟩
    · rw [if_neg he] at h
      have hstep : ∀ (v : GmlVal),
          gmlChild excluded srsName feature ks (jset init k0 v) = .ok c →
          k ∈ jkeys init ∨ (k ∈ k0 :: ks ∧ excluded k = false) := by
        intro v hv
        rcases ih _ c hv k hk with hc | hc
        · rw [mem_jkeys_jset] at hc
          rcases hc with hc | hc
          · exact Or.inl hc
          · subst hc
            exact Or.inr ⟨List.mem_cons_self _ _, by simpa using he⟩
        · exact Or.inr ⟨List.mem_cons_of_mem _ hc.1, hc.2⟩
      by_cases hg : k0 = "geom"
      · rw [if_pos hg] at h
        cases hgeom : gmlGeomVal srsName feature with
        | error e => rw [hgeom] at h; exact absurd h (by simp)
        | ok g => rw [hgeom] at h; exact hstep g h
      · rw [if_neg hg] at h
        exact hstep _ h

theorem gmlMember_ok_char (excluded : String → Bool) (srsName : Option String)
    (feature : JsObj Value) (g : GmlVal)
    (hok : gmlGeomVal srsName feature = .ok g) :
    gmlMember excluded srsName feature =
      .ok ⟨jsStr (jget feature "featureset"),
        writeAll (fun k => if k = "geom" then g else .text (jsStr (jget feature k)))
          excluded (jkeys feature)
          [("@gml:id", .text ("Point." ++ jsStr (jget feature "id")))]⟩ := by
  rw [gmlMember, gmlChild_ok_char excluded srsName feature g hok]

theorem gmlMember_error (excluded : String → Bool) (srsName : Option String)
    (feature : JsObj Value) (e : String)
    (herr : gmlGeomVal srsName feature = .error e)
    (hmem : "geom" ∈ jkeys feature) (hexc : excluded "geom" = false) :
    gmlMember excluded srsName feature = .error e := by
  rw [gmlMember, gmlChild_error excluded srsName feature e herr _ _ hmem hexc]

theorem gmlMember_ok_tag (excluded : String → Bool) (srsName : Option String)
    (feature : JsObj Value) (m : GmlMember)
    (h : gmlMember excluded srsName feature = .ok m) :
    m.tag = jsStr (jget feature "featureset") := by
  rw [gmlMember] at h
  cases hc : gmlChild excluded srsName feature (jkeys feature)
      [("@gml:id", .text ("Point." ++ jsStr (jget feature "id")))] with
  | error e => rw [hc] at h; exact absurd h (by simp)
  | ok child =>
    rw [hc] at h
    have h2 : Except.ok (ε := String)
        (⟨jsStr (jget feature "featureset"), child⟩ : GmlMember) = .ok m := h
    cases h2
    rfl

theorem gmlMember_ok_child (excluded : String → Bool) (srsName : Option String)
    (feature : JsObj Value) (m : GmlMember)
    (h : gmlMember excluded srsName feature = .ok m) :
    gmlChild excluded srsName feature (jkeys feature)
      [("@gml:id", .text ("Point." ++ jsStr (jget feature "id")))] = .ok m.child := by
  rw [gmlMember] at h
  cases hc : gmlChild excluded srsName feature (jkeys feature)
      [("@gml:id", .text ("Point." ++ jsStr (jget feature "id")))] with
  | error e => rw [hc] at h; exact absurd h (by simp)
  | ok child =>
    rw [hc] at h
    have h2 : Except.ok (ε := String)
        (⟨jsStr (jget feature "featureset"), child⟩ : GmlMember) = .ok m := h
    cases h2
    rfl

theorem mapMembers_ok_map (excluded : String → Bool) (srsName : Option String)
    (g : JsObj Value → GmlMember) :
    ∀ fs : List (JsObj Value),
      (∀ f ∈ fs, gmlMember excluded srsName f = .ok (g f)) →
      mapMembers excluded srsName fs = .ok (fs.map g) := by
  intro fs
  induction fs with
  | nil => intro _; rfl
  | cons f0 fs ih =>
    intro h
    rw [mapMembers, h f0 (List.mem_cons_self _ _), ih (fun f hf => h f (List.mem_cons_of_mem _ hf))]
    rfl

theorem mapMembers_error_of_exists (excluded : String → Bool) (srsName : Option String) :
    ∀ fs : List (JsObj Value),
      (∀ f ∈ fs, gmlMember excluded srsName f = .error "unsupported SRS" ∨
        ∃ m, gmlMember excluded srsName f = .ok m) →
      (∃ f ∈ fs, gmlMember excluded srsName f = .error "unsupported SRS") →
      mapMembers excluded srsName fs = .error "unsupported SRS" := by
  intro fs
  induction fs with
  | nil => intro _ hex; simp at hex
  | cons f0 fs ih =>
    intro hall hex
    rcases hall f0 (List.mem_cons_self _ _) with h0 | h0
    · rw [mapMembers, h0]
    · obtain ⟨m, hm⟩ := h0
      rw [mapMembers, hm]
      have htail : mapMembers excluded srsName fs = .error "unsupported SRS" := by
        apply ih (fun f hf => hall f (List.mem_cons_of_mem _ hf))
        obtain ⟨f, hf, herr⟩ := hex
        rcases List.mem_cons.1 hf with rfl | hf2
        · rw [hm] at herr; exact absurd herr (by simp)
        · exact ⟨f, hf2, herr⟩
      rw [htail]

theorem mapMembers_ok_forall (excluded : String → Bool) (srsName : Option String) :
    ∀ (fs : List (JsObj Value)) (ms : List GmlMember),
      mapMembers excluded srsName fs = .ok ms →
      ms.length = fs.length ∧
        ∀ i (h1 : i < fs.length) (h2 : i < ms.length),
          gmlMember excluded srsName (fs.get ⟨i, h1⟩) = .ok (ms.get ⟨i, h2⟩) := by
  intro fs
  induction fs with
  | nil =>
    intro ms h
    have h2 : Except.ok (ε := String) ([] : List GmlMember) = .ok ms := h
    cases h2
    exact ⟨rfl, fun i h1 _ => by simp at h1⟩
  | cons f0 fs ih =>
    intro ms h
    rw [mapMembers] at h
    cases hm : gmlMember excluded srsName f0 with
    | error e => rw [hm] at h; exact absurd h (by simp)
    | ok m0 =>
      rw [hm] at h
      cases hms : mapMembers excluded srsName fs with
      | error e =>
        rw [hms] at h
        exact absurd h (by simp)
      | ok ms0 =>
        rw [hms] at h
        have h2 : Except.ok (ε := String) (m0 :: ms0) = .ok ms := h
        cases h2
        obtain ⟨hlen, hall⟩ := ih ms0 hms
        refine ⟨by simp [hlen], ?_⟩
        intro i h1 h2
        cases i with
        | zero => simpa using hm
        | succ i2 =>
          have e1 : i2 < fs.length := by simpa using h1
          have e2 : i2 < ms0.length := by simpa using h2
          simpa using hall i2 e1 e2

theorem queryPhase_features (table : List (JsObj Value)) (tns : List String)
    (bbox : Option (Int × Int × Int × Int)) (count : Option Nat) :
    (queryPhase table tns bbox count).features = fetchRows table tns bbox count := by
  cases count <;> rfl

theorem queryPhase_calls_none (table : List (JsObj Value)) (tns : List String)
    (bbox : Option (Int × Int × Int × Int)) :
    (queryPhase table tns bbox none).calls =
      [⟨.fetch, queryParams tns bbox none⟩] := rfl

theorem queryPhase_calls_some (table : List (JsObj Value)) (tns : List String)
    (bbox : Option (Int × Int × Int × Int)) (k : Nat) :
    (queryPhase table tns bbox (some k)).calls =
      [⟨.fetch, queryParams tns bbox (some k)⟩,
       ⟨.totalCount, jremoveKey (queryParams tns bbox (some k)) "$count"⟩] := rfl

theorem wfsGetFeature_fst (table : List (JsObj Value)) (excluded : String → Bool)
    (serverUrl : String) (req : WfsRequest) :
    (wfsGetFeature table excluded serverUrl req).1 =
      (queryPhase table req.typeNames req.bbox req.count).calls := by
  by_cases h : req.outputFormat = "GEOJSON"
  · rw [wfsGetFeature, if_pos h]
  · rw [wfsGetFeature, if_neg h]

theorem wfsGetFeature_snd_geojson (table : List (JsObj Value)) (excluded : String → Bool)
    (serverUrl : String) (req : WfsRequest) (hfmt : req.outputFormat = "GEOJSON") :
    (wfsGetFeature table excluded serverUrl req).2 =
      .ok ⟨200, "application/json",
        .json ⟨((queryPhase table req.typeNames req.bbox req.count).features.map
          (mapFeature serverUrl)).map (geoFeature req.srsName)⟩⟩ := by
  rw [wfsGetFeature, if_pos hfmt]

theorem wfsGetFeature_snd_gml_error (table : List (JsObj Value)) (excluded : String → Bool)
    (serverUrl : String) (req : WfsRequest) (hfmt : ¬ req.outputFormat = "GEOJSON")
    (e : String)
    (herr : mapMembers excluded req.srsName
      ((queryPhase table req.typeNames req.bbox req.count).features.map
        (mapFeature serverUrl)) = .error e) :
    (wfsGetFeature table excluded serverUrl req).2 = .error e := by
  rw [wfsGetFeature, if_neg hfmt]
  simp only [herr]

theorem wfsGetFeature_snd_gml_ok (table : List (JsObj Value)) (excluded : String → Bool)
    (serverUrl : String) (req : WfsRequest) (hfmt : ¬ req.outputFormat = "GEOJSON")
    (members : List GmlMember)
    (hok : mapMembers excluded req.srsName
      ((queryPhase table req.typeNames req.bbox req.count).features.map
        (mapFeature serverUrl)) = .ok members) :
    (wfsGetFeature table excluded serverUrl req).2 =
      .ok ⟨200, "text/xml",
        .xml ⟨"http://www.opengis.net/wfs/2.0", "http://www.opengis.net/gml/3.2",
          "http://www.w3.org/2001/XMLSchema-instance",
          ((queryPhase table req.typeNames req.bbox req.count).features.map
            (mapFeature serverUrl)).length,
          (queryPhase table req.typeNames req.bbox req.count).numberMatched,
          members⟩⟩ := by
  rw [wfsGetFeature, if_neg hfmt]
  simp only [hok]

/-- C1: for every request, the total-count query is executed if and only if a
count limit was applied; when no count limit is present, numberMatched equals
the fetched row count (no second query); when count = k and the true match
count M exceeds k, numberMatched equals M while k rows are fetched. -/
theorem wfs_count_consistency (table : List (JsObj Value)) (excluded : String → Bool)
    (serverUrl : String) (req : WfsRequest) :
    ((QueryKind.totalCount ∈ (wfsGetFeature table excluded serverUrl req).1.map QueryCall.kind) ↔
        req.count.isSome = true) ∧
    (req.count = none →
      (queryPhase table req.typeNames req.bbox req.count).numberMatched =
        (queryPhase table req.typeNames req.bbox req.count).features.length) ∧
    (∀ k, req.count = some k →
      k < (table.filter (rowMatches req.typeNames req.bbox)).length →
      (queryPhase table req.typeNames req.bbox req.count).numberMatched =
        (table.filter (rowMatches req.typeNames req.bbox)).length ∧
      (queryPhase table req.typeNames req.bbox req.count).features.length = k) := by
  rw [wfsGetFeature_fst]
  obtain ⟨tns, bbox, count, fmt, srs⟩ := req
  dsimp only
  cases count with
  | none =>
    refine ⟨?_, ?_, ?_⟩
    · rw [queryPhase_calls_none]
      simp
    · intro _
      rfl
    · intro k hk
      exact absurd hk (by simp)
  | some k0 =>
    refine ⟨?_, ?_, ?_⟩
    · rw [queryPhase_calls_some]
      simp
    · intro h
      exact absurd h (by simp)
    · intro k hk hM
      have hkk : k0 = k := by
        have : some k0 = some k := hk
        injection this
      subst hkk
      refine ⟨rfl, ?_⟩
      rw [queryPhase_features]
      rw [show fetchRows table tns bbox (some k0) =
        (table.filter (rowMatches tns bbox)).take k0 from rfl]
      rw [List.length_take]
      omega

/-- C1 witness: on the sample table with count = 1, the total-count query runs,
numberMatched is the true match count 2, and one row is fetched. -/
theorem wfs_count_consistency_witness :
    (QueryKind.totalCount ∈ (wfsGetFeature sampleTable EXCLUDED_WFS_COLUMNS
        "http://gis.example" ⟨["parks"], none, some 1, "GML", none⟩).1.map QueryCall.kind) ∧
    (queryPhase sampleTable ["parks"] none (some 1)).numberMatched = 2 ∧
    (queryPhase sampleTable ["parks"] none (some 1)).features.length = 1 := by
  have h := wfs_count_consistency sampleTable EXCLUDED_WFS_COLUMNS
    "http://gis.example" ⟨["parks"], none, some 1, "GML", none⟩
  have h4 := h.2.2 1 rfl (by decide)
  exact ⟨h.1.2 rfl, h4.1.trans (by decide), h4.2⟩

/-- C4: whenever the total-count query is executed its parameter mapping has
no binding for the $count slot, while the fetch query binds every type name
to its own $paramN slot, the four bounding-box components (when present) to
the $bbox0..$bbox3 slots, the count (when present) to $count, and all slots
of the fetch mapping are distinct. -/
theorem wfs_param_isolation (table : List (JsObj Value)) (excluded : String → Bool)
    (serverUrl : String) (req : WfsRequest) :
    (∀ c ∈ (wfsGetFeature table excluded serverUrl req).1,
      c.kind = QueryKind.totalCount → ∀ kv ∈ c.params, kv.1 ≠ "$count") ∧
    (∀ c ∈ (wfsGetFeature table excluded serverUrl req).1,
      c.kind = QueryKind.fetch →
      (∀ i (h : i < req.typeNames.length),
        jget c.params ("$param" ++ toString i) =
          some (.str (req.typeNames.get ⟨i, h⟩))) ∧
      (∀ b0 b1 b2 b3, req.bbox = some (b0, b1, b2, b3) →
        jget c.params "$bbox0" = some (.int b0) ∧
        jget c.params "$bbox1" = some (.int b1) ∧
        jget c.params "$bbox2" = some (.int b2) ∧
        jget c.params "$bbox3" = some (.int b3)) ∧
      (∀ k, req.count = some k → jget c.params "$count" = some (.int k)) ∧
      (jkeys c.params).Nodup) := by
  rw [wfsGetFeature_fst]
  obtain ⟨tns, bbox, count, fmt, srs⟩ := req
  dsimp only
  constructor
  · intro c hc hkind kv hkv
    cases count with
    | none =>
      rw [queryPhase_calls_none] at hc
      rw [List.mem_singleton] at hc
      subst hc
      simp at hkind
    | some k0 =>
      rw [queryPhase_calls_some] at hc
      rcases List.mem_cons.1 hc with rfl | hc2
      · simp at hkind
      · rw [List.mem_singleton] at hc2
        subst hc2
        exact jremoveKey_ne _ _ kv hkv
  · intro c hc hkind
    have hp : c.params = queryParams tns bbox count := by
      cases count with
      | none =>
        rw [queryPhase_calls_none] at hc
        rw [List.mem_singleton] at hc
        subst hc
        rfl
      | some k0 =>
        rw [queryPhase_calls_some] at hc
        rcases List.mem_cons.1 hc with rfl | hc2
        · rfl
        · rw [List.mem_singleton] at hc2
          subst hc2
          simp at hkind
    rw [hp]
    refine ⟨?_, ?_, ?_, jkeys_queryParams_nodup tns bbox count⟩
    · intro i h
      exact jget_queryParams_param tns bbox count i h
    · intro b0 b1 b2 b3 hb
      subst hb
      exact jget_queryParams_bbox tns b0 b1 b2 b3 count
    · intro k hk
      subst hk
      exact jget_queryParams_count tns bbox k

/-- C4 witness: for two type names, a bounding box and count = 5, the
total-count mapping omits $count while the fetch mapping binds $param1,
$bbox2 and $count as expected, with pairwise distinct keys. -/
theorem wfs_param_isolation_witness :
    (∀ kv ∈ jremoveKey (queryParams ["parks", "roads"]
        (some (0, 0, 10, 10)) (some 5)) "$count", kv.1 ≠ "$count") ∧
    jget (queryParams ["parks", "roads"] (some (0, 0, 10, 10)) (some 5))
      ("$param" ++ toString 1) = some (.str "roads") ∧
    jget (queryParams ["parks", "roads"] (some (0, 0, 10, 10)) (some 5))
      "$bbox2" = some (.int 10) ∧
    jget (queryParams ["parks", "roads"] (some (0, 0, 10, 10)) (some 5))
      "$count" = some (.int 5) ∧
    (jkeys (queryParams ["parks", "roads"] (some (0, 0, 10, 10)) (some 5))).Nodup := by
  have h := wfs_param_isolation sampleTable EXCLUDED_WFS_COLUMNS "http://gis.example"
    ⟨["parks", "roads"], some (0, 0, 10, 10), some 5, "GML", none⟩
  have hcmem : (⟨QueryKind.totalCount, jremoveKey (queryParams ["parks", "roads"]
      (some (0, 0, 10, 10)) (some 5)) "$count"⟩ : QueryCall) ∈
      (wfsGetFeature sampleTable EXCLUDED_WFS_COLUMNS "http://gis.example"
        ⟨["parks", "roads"], some (0, 0, 10, 10), some 5, "GML", none⟩).1 := by
    rw [wfsGetFeature_fst, queryPhase_calls_some]
    simp
  have hfmem : (⟨QueryKind.fetch, queryParams ["parks", "roads"]
      (some (0, 0, 10, 10)) (some 5)⟩ : QueryCall) ∈
      (wfsGetFeature sampleTable EXCLUDED_WFS_COLUMNS "http://gis.example"
        ⟨["parks", "roads"], some (0, 0, 10, 10), some 5, "GML", none⟩).1 := by
    rw [wfsGetFeature_fst, queryPhase_calls_some]
    simp
  have h1 := h.1 _ hcmem rfl
  have h2 := h.2 _ hfmem rfl
  refine ⟨h1, ?_, ?_, ?_, h2.2.2.2⟩
  · exact h2.1 1 (by decide)
  · exact (h2.2.1 0 0 10 10 rfl).2.2.1
  · exact h2.2.2.1 5 rfl

/-- C8: the decorator returns a new record that agrees with the input row on
every original key (original fields win on collision) and, when the row does
not itself define viewerUrl, starts with the derived viewerUrl property
followed by all original fields in order. -/
theorem mapFeature_contract (serverUrl : String) (row : JsObj Value)
    (hnd : (jkeys row).Nodup) :
    (∀ k ∈ jkeys row, jget (mapFeature serverUrl row) k = jget row k) ∧
    ("viewerUrl" ∉ jkeys row →
      jkeys (mapFeature serverUrl row) = "viewerUrl" :: jkeys row ∧
      jget (mapFeature serverUrl row) "viewerUrl" =
        some (.str (serverUrl ++ "/viewer#camera=" ++
          jsStr (jget row "latitude") ++ "," ++
          jsStr (jget row "longitude") ++ ",18.00z"))) := by
  constructor
  · intro k hk
    rw [mapFeature, jget_spreadInto_mem _ _ _ hnd hk]
  · intro hv
    exact ⟨jkeys_mapFeature serverUrl row hnd hv,
      jget_mapFeature_viewerUrl serverUrl row hv⟩

/-- C8 witness: decorating the first sample row preserves its x value,
prepends viewerUrl to the key list and derives it from the row coordinates. -/
theorem mapFeature_contract_witness :
    jget (mapFeature "http://gis.example" sampleRow1) "x" = jget sampleRow1 "x" ∧
    jkeys (mapFeature "http://gis.example" sampleRow1) =
      "viewerUrl" :: jkeys sampleRow1 ∧
    jget (mapFeature "http://gis.example" sampleRow1) "viewerUrl" =
      some (.str "http://gis.example/viewer#camera=10,20,18.00z") := by
  have h := mapFeature_contract "http://gis.example" sampleRow1 (by decide)
  have h2 := h.2 (by decide)
  exact ⟨h.1 "x" (by decide), h2.1, h2.2.trans (by decide)⟩

/-- C5: in the GeoJSON branch the geom column never appears as a properties
key, and every other column of the feature is copied into properties as a
string. -/
theorem geojson_geom_not_stringified (feature : JsObj Value) :
    jget (geoProperties feature) "geom" = none ∧
    (∀ k ∈ jkeys feature, k ≠ "geom" →
      jget (geoProperties feature) k = some (.str (jsStr (jget feature k)))) := by
  constructor
  · rw [geoProperties, jget_writeAll, if_neg (by simp)]
    simp [jget]
  · intro k hk hne
    rw [geoProperties, jget_writeAll, if_pos ⟨hk, by simp [hne]⟩]

/-- C5 witness: on the first sample row geom is absent from properties while
the x column appears stringified. -/
theorem geojson_geom_not_stringified_witness :
    jget (geoProperties sampleRow1) "geom" = none ∧
    jget (geoProperties sampleRow1) "x" = some (.str "3") := by
  have h := geojson_geom_not_stringified sampleRow1
  exact ⟨h.1, (h.2 "x" (by decide) (by decide)).trans (by decide)⟩

/-- C10: the excluded-columns set is not consulted by the GeoJSON branch
(every non-geom column, excluded or not, is emitted as a string property),
the derived viewerUrl is emitted as a string property, and a column
literally named GmlID overwrites the Point.<id> identity property. -/
theorem geojson_no_exclusion (excluded : String → Bool) (serverUrl : String)
    (row feature : JsObj Value) :
    (∀ k ∈ jkeys feature, k ≠ "geom" → excluded k = true →
      jget (geoProperties feature) k = some (.str (jsStr (jget feature k)))) ∧
    ((jkeys row).Nodup → "viewerUrl" ∉ jkeys row →
      jget (geoProperties (mapFeature serverUrl row)) "viewerUrl" =
        some (.str (serverUrl ++ "/viewer#camera=" ++
          jsStr (jget row "latitude") ++ "," ++
          jsStr (jget row "longitude") ++ ",18.00z"))) ∧
    ("GmlID" ∈ jkeys feature →
      jget (geoProperties feature) "GmlID" =
        some (.str (jsStr (jget feature "GmlID")))) := by
  refine ⟨?_, ?_, ?_⟩
  · intro k hk hne _
    rw [geoProperties, jget_writeAll, if_pos ⟨hk, by simp [hne]⟩]
  · intro hnd hv
    rw [geoProperties, jget_writeAll,
      if_pos ⟨(mem_jkeys_mapFeature serverUrl row "viewerUrl").2 (Or.inl rfl), by decide⟩]
    rw [jget_mapFeature_viewerUrl serverUrl row hv]
    rfl
  · intro hk
    rw [geoProperties, jget_writeAll, if_pos ⟨hk, by decide⟩]

/-- C10 witness: the excluded id column of the sample row is still emitted by
the GeoJSON branch, viewerUrl is emitted, and the GmlID column of the
colliding row overwrites the identity property. -/
theorem geojson_no_exclusion_witness :
    jget (geoProperties sampleRow1) "id" = some (.str "1") ∧
    jget (geoProperties (mapFeature "http://gis.example" sampleRow1)) "viewerUrl" =
      some (.str "http://gis.example/viewer#camera=10,20,18.00z") ∧
    jget (geoProperties gmlidRow) "GmlID" = some (.str "boom") := by
  have h := geojson_no_exclusion EXCLUDED_WFS_COLUMNS "http://gis.example"
    sampleRow1 sampleRow1
  have h3 := geojson_no_exclusion EXCLUDED_WFS_COLUMNS "http://gis.example"
    sampleRow1 gmlidRow
  refine ⟨(h.1 "id" (by decide) (by decide) (by decide)).trans (by decide), ?_, ?_⟩
  · exact (h.2.1 (by decide) (by decide)).trans (by decide)
  · exact (h3.2.2 (by decide)).trans (by decide)

/-- C6 counterexample: on a row carrying a column literally named GmlID, the
emitted GeoJSON identity property is the column value, not Point.<id>, so the
identity-propagation claim fails as stated. -/
theorem identity_propagation_cex :
    jget (geoProperties gmlidRow) "GmlID" ≠
      some (.str ("Point." ++ jsStr (jget gmlidRow "id"))) := by
  decide

/-- C6 amended: provided the row has no column literally named GmlID (nor, in
GML, one named @gml:id), the emitted identity is exactly Point.<id> in both
branches, and the GML member child tag is the featureset value of the row. -/
theorem identity_propagation_amended (excluded : String → Bool)
    (srsName : Option String) (feature : JsObj Value)
    (hG : "GmlID" ∉ jkeys feature) (hA : "@gml:id" ∉ jkeys feature) :
    jget (geoProperties feature) "GmlID" =
      some (.str ("Point." ++ jsStr (jget feature "id"))) ∧
    (∀ m, gmlMember excluded srsName feature = .ok m →
      m.tag = jsStr (jget feature "featureset") ∧
      jget m.child "@gml:id" =
        some (.text ("Point." ++ jsStr (jget feature "id")))) := by
  constructor
  · rw [geoProperties, jget_writeAll, if_neg (fun hcon => hG hcon.1)]
    simp [jget]
  · intro m hm
    refine ⟨gmlMember_ok_tag excluded srsName feature m hm, ?_⟩
    have hc := gmlMember_ok_child excluded srsName feature m hm
    rw [gmlChild_ok_jget_not_mem excluded srsName feature _ _ _ hc "@gml:id" hA]
    simp [jget]

/-- C6 amended witness: on the first sample row the GeoJSON identity is
Point.1 and the GML member is tagged parks with gml:id attribute Point.1. -/
theorem identity_propagation_amended_witness :
    jget (geoProperties sampleRow1) "GmlID" = some (.str "Point.1") ∧
    (gmlMember EXCLUDED_WFS_COLUMNS (some "EPSG:3857") sampleRow1).map
      (fun m => (m.tag, jget m.child "@gml:id")) =
        .ok ("parks", some (.text "Point.1")) := by
  have h := identity_propagation_amended EXCLUDED_WFS_COLUMNS (some "EPSG:3857")
    sampleRow1 (by decide) (by decide)
  have hok := gmlMember_ok_char EXCLUDED_WFS_COLUMNS (some "EPSG:3857") sampleRow1 _ rfl
  obtain ⟨ht, hg⟩ := h.2 _ hok
  refine ⟨h.1.trans (by decide), ?_⟩
  rw [hok]
  simp only [Except.map, Except.ok.injEq, Prod.mk.injEq]
  exact ⟨ht.trans (by decide), hg.trans (by decide)⟩

/-- C7: when a GML member is produced, no excluded column name occurs among
the non-attribute keys of its child element. -/
theorem gml_exclusion_fidelity (excluded : String → Bool) (srsName : Option String)
    (feature : JsObj Value) (m : GmlMember)
    (hm : gmlMember excluded srsName feature = .ok m) :
    ∀ k ∈ jkeys m.child, isAttrKey k = false → excluded k = false := by
  intro k hk hattr
  have hc := gmlMember_ok_child excluded srsName feature m hm
  rcases gmlChild_ok_mem_jkeys excluded srsName feature _ _ _ hc k hk with hinit | hks
  · have hid : k = "@gml:id" := by simpa [jkeys] using hinit
    rw [hid] at hattr
    exact absurd hattr (by decide)
  · exact hks.2

/-- C7 witness: the member built from the first sample row emits the x column
as an element, and indeed x is not excluded. -/
theorem gml_exclusion_fidelity_witness : EXCLUDED_WFS_COLUMNS "x" = false := by
  have hok := gmlMember_ok_char EXCLUDED_WFS_COLUMNS (some "EPSG:3857") sampleRow1 _ rfl
  exact gml_exclusion_fidelity EXCLUDED_WFS_COLUMNS (some "EPSG:3857") sampleRow1 _ hok
    "x" (by decide) (by decide)

theorem geojson_doc_features (table : List (JsObj Value)) (excluded : String → Bool)
    (serverUrl : String) (req : WfsRequest) (hfmt : req.outputFormat = "GEOJSON") :
    (wfsGetFeature table excluded serverUrl req).2 =
      .ok ⟨200, "application/json",
        .json ⟨(fetchRows table req.typeNames req.bbox req.count).map
          (fun row => geoFeature req.srsName (mapFeature serverUrl row))⟩⟩ := by
  rw [wfsGetFeature_snd_geojson table excluded serverUrl req hfmt, queryPhase_features,
    List.map_map]
  rfl

theorem fetchRows_subset (table : List (JsObj Value)) (tns : List String)
    (bbox : Option (Int × Int × Int × Int)) (count : Option Nat) :
    ∀ r ∈ fetchRows table tns bbox count, r ∈ table := by
  intro r hr
  cases count with
  | none => exact List.mem_of_mem_filter hr
  | some k => exact List.mem_of_mem_filter (List.take_subset _ _ hr)

theorem geoFeature_coordinates_of_row (serverUrl : String) (srsName : Option String)
    (row : JsObj Value) (hnd : (jkeys row).Nodup) :
    (geoFeature srsName (mapFeature serverUrl row)).coordinates =
      if srsName = some "EPSG:4326" then
        [jget row "longitude", jget row "latitude"]
      else
        [jget row "x", jget row "y"] := by
  rw [geoFeature]
  by_cases hs : srsName = some "EPSG:4326"
  · rw [if_pos hs, if_pos hs]
    rw [jget_mapFeature serverUrl row hnd "longitude" (by decide),
      jget_mapFeature serverUrl row hnd "latitude" (by decide)]
  · rw [if_neg hs, if_neg hs]
    rw [jget_mapFeature serverUrl row hnd "x" (by decide),
      jget_mapFeature serverUrl row hnd "y" (by decide)]

/-- C3: in the GeoJSON branch the response is a 200 application/json document
whose features are the decorated fetched rows, and each geometry carries
[longitude, latitude] when srsName is EPSG:4326 and [x, y] otherwise. -/
theorem geojson_coordinate_order (table : List (JsObj Value)) (excluded : String → Bool)
    (serverUrl : String) (req : WfsRequest) (hfmt : req.outputFormat = "GEOJSON")
    (hwf : ∀ row ∈ table, (jkeys row).Nodup) :
    (wfsGetFeature table excluded serverUrl req).2 =
      .ok ⟨200, "application/json",
        .json ⟨(fetchRows table req.typeNames req.bbox req.count).map
          (fun row => geoFeature req.srsName (mapFeature serverUrl row))⟩⟩ ∧
    ∀ i (h : i < (fetchRows table req.typeNames req.bbox req.count).length),
      (geoFeature req.srsName (mapFeature serverUrl
          ((fetchRows table req.typeNames req.bbox req.count).get ⟨i, h⟩))).coordinates =
        (if req.srsName = some "EPSG:4326" then
          [jget ((fetchRows table req.typeNames req.bbox req.count).get ⟨i, h⟩) "longitude",
           jget ((fetchRows table req.typeNames req.bbox req.count).get ⟨i, h⟩) "latitude"]
        else
          [jget ((fetchRows table req.typeNames req.bbox req.count).get ⟨i, h⟩) "x",
           jget ((fetchRows table req.typeNames req.bbox req.count).get ⟨i, h⟩) "y"]) := by
  refine ⟨geojson_doc_features table excluded serverUrl req hfmt, ?_⟩
  intro i h
  have hmem : (fetchRows table req.typeNames req.bbox req.count).get ⟨i, h⟩ ∈ table :=
    fetchRows_subset table req.typeNames req.bbox req.count _ (List.get_mem _ _ _)
  exact geoFeature_coordinates_of_row serverUrl req.srsName _ (hwf _ hmem)

/-- C3 witness: with no srsName the first fetched sample row is emitted with
projected [x, y] coordinates 3, 4. -/
theorem geojson_coordinate_order_witness :
    (geoFeature (none : Option String) (mapFeature "http://gis.example"
        ((fetchRows sampleTable ["parks"] none none).get ⟨0, by decide⟩))).coordinates =
      [some (.int 3), some (.int 4)] := by
  have h := geojson_coordinate_order sampleTable EXCLUDED_WFS_COLUMNS "http://gis.example"
    ⟨["parks"], none, none, "GEOJSON", none⟩ rfl (by decide)
  exact (h.2 0 (by decide)).trans (by decide)

/-- C9: the GeoJSON branch never raises UnsupportedCRS: for every srsName
value the handler answers 200 application/json, and whenever srsName is not
exactly EPSG:4326 the coordinates silently fall back to [x, y]. -/
theorem geojson_no_crs_check (table : List (JsObj Value)) (excluded : String → Bool)
    (serverUrl : String) (req : WfsRequest) (hfmt : req.outputFormat = "GEOJSON")
    (hwf : ∀ row ∈ table, (jkeys row).Nodup) :
    (wfsGetFeature table excluded serverUrl req).2 =
      .ok ⟨200, "application/json",
        .json ⟨(fetchRows table req.typeNames req.bbox req.count).map
          (fun row => geoFeature req.srsName (mapFeature serverUrl row))⟩⟩ ∧
    (req.srsName ≠ some "EPSG:4326" →
      ∀ i (h : i < (fetchRows table req.typeNames req.bbox req.count).length),
        (geoFeature req.srsName (mapFeature serverUrl
            ((fetchRows table req.typeNames req.bbox req.count).get ⟨i, h⟩))).coordinates =
          [jget ((fetchRows table req.typeNames req.bbox req.count).get ⟨i, h⟩) "x",
           jget ((fetchRows table req.typeNames req.bbox req.count).get ⟨i, h⟩) "y"]) := by
  refine ⟨geojson_doc_features table excluded serverUrl req hfmt, ?_⟩
  intro hsrs i h
  have hmem : (fetchRows table req.typeNames req.bbox req.count).get ⟨i, h⟩ ∈ table :=
    fetchRows_subset table req.typeNames req.bbox req.count _ (List.get_mem _ _ _)
  rw [geoFeature_coordinates_of_row serverUrl req.srsName _ (hwf _ hmem), if_neg hsrs]

/-- C9 witness: with the unsupported srsName EPSG:9999 the GeoJSON branch
still answers 200 with [x, y] coordinates. -/
theorem geojson_no_crs_check_witness :
    (wfsGetFeature sampleTable EXCLUDED_WFS_COLUMNS "http://gis.example"
        ⟨["parks"], none, none, "GEOJSON", some "EPSG:9999"⟩).2 =
      .ok ⟨200, "application/json",
        .json ⟨(fetchRows sampleTable ["parks"] none none).map
          (fun row => geoFeature (some "EPSG:9999")
            (mapFeature "http://gis.example" row))⟩⟩ ∧
    (geoFeature (some "EPSG:9999") (mapFeature "http://gis.example"
        ((fetchRows sampleTable ["parks"] none none).get ⟨0, by decide⟩))).coordinates =
      [some (.int 3), some (.int 4)] := by
  have h := geojson_no_crs_check sampleTable EXCLUDED_WFS_COLUMNS "http://gis.example"
    ⟨["parks"], none, none, "GEOJSON", some "EPSG:9999"⟩ rfl (by decide)
  exact ⟨h.1, ((h.2 (by decide) 0 (by decide))).trans (by decide)⟩

/-- C2: in the GML branch, with the resolver defaulting an absent srsName to
EPSG:3857, the gml:Point of every feature carries the 3857 URN and "x y" position
for EPSG:3857 or unspecified srsName, the 4326 URN and "latitude longitude"
position for EPSG:4326, and any other srsName makes the request fail with the
unsupported-SRS error before any XML is emitted (no response at all). -/
theorem gml_crs_branching (table : List (JsObj Value)) (excluded : String → Bool)
    (serverUrl : String) (tns : List String) (bbox : Option (Int × Int × Int × Int))
    (count : Option Nat) (raw : Option String) (hexc : excluded "geom" = false) :
    ((raw = none ∨ raw = some "EPSG:3857") →
      (∃ doc : GmlDoc, (wfsGetFeature table excluded serverUrl
          ⟨tns, bbox, count, "GML", some (resolveSrsName raw)⟩).2 =
        .ok ⟨200, "text/xml", .xml doc⟩) ∧
      (∀ f : JsObj Value, "geom" ∈ jkeys f →
        ∃ m, gmlMember excluded (some (resolveSrsName raw)) f = .ok m ∧
          jget m.child "geom" = some (.point "urn:ogc:def:crs:EPSG::3857" 2
            ("GmlPoint." ++ jsStr (jget f "id"))
            (jsStr (jget f "x") ++ " " ++ jsStr (jget f "y"))))) ∧
    (raw = some "EPSG:4326" →
      (∃ doc : GmlDoc, (wfsGetFeature table excluded serverUrl
          ⟨tns, bbox, count, "GML", some (resolveSrsName raw)⟩).2 =
        .ok ⟨200, "text/xml", .xml doc⟩) ∧
      (∀ f : JsObj Value, "geom" ∈ jkeys f →
        ∃ m, gmlMember excluded (some (resolveSrsName raw)) f = .ok m ∧
          jget m.child "geom" = some (.point "urn:ogc:def:crs:EPSG::4326" 2
            ("GmlPoint." ++ jsStr (jget f "id"))
            (jsStr (jget f "latitude") ++ " " ++ jsStr (jget f "longitude"))))) ∧
    (∀ s, raw = some s → s ≠ "EPSG:3857" → s ≠ "EPSG:4326" →
      (∃ f ∈ (fetchRows table tns bbox count).map (mapFeature serverUrl),
        "geom" ∈ jkeys f) →
      (wfsGetFeature table excluded serverUrl
        ⟨tns, bbox, count, "GML", some (resolveSrsName raw)⟩).2 =
          .error "unsupported SRS") := by
  have hfmt : ¬ ("GML" : String) = "GEOJSON" := by decide
  refine ⟨?_, ?_, ?_⟩
  · intro hres
    have hv : resolveSrsName raw = "EPSG:3857" := by
      rcases hres with rfl | rfl <;> rfl
    have hgv : ∀ f : JsObj Value, gmlGeomVal (some (resolveSrsName raw)) f =
        .ok (.point "urn:ogc:def:crs:EPSG::3857" 2 ("GmlPoint." ++ jsStr (jget f "id"))
          (jsStr (jget f "x") ++ " " ++ jsStr (jget f "y"))) := by
      intro f
      rw [hv, gmlGeomVal, if_pos rfl]
    constructor
    · have hmm := mapMembers_ok_map excluded (some (resolveSrsName raw))
        (fun f => ⟨jsStr (jget f "featureset"),
          writeAll (fun k => if k = "geom" then
              GmlVal.point "urn:ogc:def:crs:EPSG::3857" 2
                ("GmlPoint." ++ jsStr (jget f "id"))
                (jsStr (jget f "x") ++ " " ++ jsStr (jget f "y"))
            else .text (jsStr (jget f k))) excluded (jkeys f)
            [("@gml:id", .text ("Point." ++ jsStr (jget f "id")))]⟩)
        ((queryPhase table tns bbox count).features.map (mapFeature serverUrl))
        (fun f _ => gmlMember_ok_char excluded _ f _ (hgv f))
      exact ⟨_, wfsGetFeature_snd_gml_ok table excluded serverUrl
        ⟨tns, bbox, count, "GML", some (resolveSrsName raw)⟩ hfmt _ hmm⟩
    · intro f hg
      refine ⟨_, gmlMember_ok_char excluded _ f _ (hgv f), ?_⟩
      dsimp only
      rw [jget_writeAll, if_pos ⟨hg, hexc⟩]
      simp
  · intro hraw
    have hv : resolveSrsName raw = "EPSG:4326" := by rw [hraw]; rfl
    have hgv : ∀ f : JsObj Value, gmlGeomVal (some (resolveSrsName raw)) f =
        .ok (.point "urn:ogc:def:crs:EPSG::4326" 2 ("GmlPoint." ++ jsStr (jget f "id"))
          (jsStr (jget f "latitude") ++ " " ++ jsStr (jget f "longitude"))) := by
      intro f
      rw [hv, gmlGeomVal, if_neg (by decide), if_pos rfl]
    constructor
    · have hmm := mapMembers_ok_map excluded (some (resolveSrsName raw))
        (fun f => ⟨jsStr (jget f "featureset"),
          writeAll (fun k => if k = "geom" then
              GmlVal.point "urn:ogc:def:crs:EPSG::4326" 2
                ("GmlPoint." ++ jsStr (jget f "id"))
                (jsStr (jget f "latitude") ++ " " ++ jsStr (jget f "longitude"))
            else .text (jsStr (jget f k))) excluded (jkeys f)
            [("@gml:id", .text ("Point." ++ jsStr (jget f "id")))]⟩)
        ((queryPhase table tns bbox count).features.map (mapFeature serverUrl))
        (fun f _ => gmlMember_ok_char excluded _ f _ (hgv f))
      exact ⟨_, wfsGetFeature_snd_gml_ok table excluded serverUrl
        ⟨tns, bbox, count, "GML", some (resolveSrsName raw)⟩ hfmt _ hmm⟩
    · intro f hg
      refine ⟨_, gmlMember_ok_char excluded _ f _ (hgv f), ?_⟩
      dsimp only
      rw [jget_writeAll, if_pos ⟨hg, hexc⟩]
      simp
  · intro s hs h1 h2 hex
    have hv : resolveSrsName raw = s := by rw [hs]; rfl
    have hbad : ∀ f : JsObj Value,
        gmlGeomVal (some (resolveSrsName raw)) f = .error "unsupported SRS" := by
      intro f
      apply gmlGeomVal_bad
      · rw [hv]
        intro hc
        exact h1 (by injection hc)
      · rw [hv]
        intro hc
        exact h2 (by injection hc)
    apply wfsGetFeature_snd_gml_error _ _ _ _ hfmt
    rw [queryPhase_features]
    apply mapMembers_error_of_exists
    · intro f _
      by_cases hg : "geom" ∈ jkeys f
      · exact Or.inl (gmlMember_error excluded _ f _ (hbad f) hg hexc)
      · obtain ⟨c, hc⟩ := gmlChild_ok_no_geom excluded (some (resolveSrsName raw)) f
          (jkeys f) [("@gml:id", .text ("Point." ++ jsStr (jget f "id")))]
          (fun k hk => Or.inr (fun hkg => hg (hkg ▸ hk)))
        exact Or.inr ⟨⟨jsStr (jget f "featureset"), c⟩, by rw [gmlMember, hc]⟩
    · obtain ⟨f, hf, hgf⟩ := hex
      exact ⟨f, hf, gmlMember_error excluded _ f _ (hbad f) hgf hexc⟩

/-- C2 witness: on the sample table an unspecified srsName yields the 3857
point "3 4" for the first row, while srsName EPSG:9999 aborts the GML request
with the unsupported-SRS error. -/
theorem gml_crs_branching_witness :
    (gmlMember EXCLUDED_WFS_COLUMNS (some (resolveSrsName none)) sampleRow1).map
      (fun m => jget m.child "geom") =
        .ok (some (.point "urn:ogc:def:crs:EPSG::3857" 2 "GmlPoint.1" "3 4")) ∧
    (wfsGetFeature sampleTable EXCLUDED_WFS_COLUMNS "http://gis.example"
        ⟨["parks"], none, none, "GML", some (resolveSrsName (some "EPSG:9999"))⟩).2 =
      .error "unsupported SRS" := by
  constructor
  · have h := gml_crs_branching sampleTable EXCLUDED_WFS_COLUMNS "http://gis.example"
      ["parks"] none none none (by decide)
    obtain ⟨m, hm, hgeom⟩ := (h.1 (Or.inl rfl)).2 sampleRow1 (by decide)
    rw [hm]
    simp only [Except.map, Except.ok.injEq]
    exact hgeom.trans (by decide)
  · have h := gml_crs_branching sampleTable EXCLUDED_WFS_COLUMNS "http://gis.example"
      ["parks"] none none (some "EPSG:9999") (by decide)
    exact h.2.2 "EPSG:9999" rfl (by decide) (by decide)
      ⟨mapFeature "http://gis.example" sampleRow1, by decide, by decide⟩
